import Mathlib

/-!
Shallow embedding of the fsspec-monitor repository (src/fsspecmonitor.py).

The Python module defines a single class FsspecMonitor that monkey-patches
the method pointer stored in the class attribute _fetch_range of a list of
target classes, records every intercepted call as a tuple
(byte_start, byte_end, time_elapsed), and computes aggregate statistics
over that log.

Modelling choices:
* Python real numbers (time.perf_counter differences and divisions) are
  modelled as rationals.
* The float value float("inf") returned by _compute_throughput is modelled
  by a dedicated constructor of the PyFloat type.
* The process-wide class attribute bindings (target._fetch_range) are
  modelled as an environment from target identifiers to implementation
  values; get_wrapper producing a fresh function object from the previous
  one is modelled by the Impl.wrap constructor.
* The dynamic behaviour of the installed wrapper (timing, logging,
  propagating results and exceptions) is modelled by wrapperCall, passing
  the original callable, its arguments, the measured elapsed time and the
  call outcome explicitly.
* Console output is modelled by returning the list of emitted lines.
-/

/-- Identifier of a monitored fsspec file class (a target type). -/
abbrev Target := ℕ

/-- A value stored in a class attribute slot for _fetch_range: either one of
the original method objects, or a wrapper produced by get_wrapper from the
value that was installed at wrapping time. -/
inductive Impl where
  | base : ℕ → Impl
  | wrap : Impl → Impl
  deriving DecidableEq

/-- The default target list [LocalFileOpener, HTTPFile, S3File] of the
source, as abstract identifiers. -/
def DEFAULT_TARGETS : List Target := [0, 1, 2]

/-- One entry of the request log: the tuple
(byte_start, byte_end, time_elapsed) appended by FsspecMonitor.log. -/
abbrev FetchRecord := ℤ × ℤ × ℚ

/-- The attribute state of an FsspecMonitor instance: targets, verbose,
self._requests and self._original_methods (a dictionary, modelled as a
partial map). -/
structure FsspecMonitor where
  targets : List Target
  verbose : Bool
  _requests : List FetchRecord
  _original_methods : Target → Option Impl

/-- FsspecMonitor.__init__: stores targets and verbose, starts with an
empty request log and an empty saved-originals dictionary. -/
def FsspecMonitor.init (targets : List Target) (verbose : Bool) : FsspecMonitor :=
  ⟨targets, verbose, [], fun _ => none⟩

/-- FsspecMonitor.reset: assigns an empty list to self._requests. -/
def FsspecMonitor.reset (m : FsspecMonitor) : FsspecMonitor :=
  { m with _requests := [] }

/-- FsspecMonitor.log: appends the tuple (byte_start, byte_end,
time_elapsed) to self._requests. -/
def FsspecMonitor.log (m : FsspecMonitor) (byte_start byte_end : ℤ)
    (time_elapsed : ℚ) : FsspecMonitor :=
  { m with _requests := m._requests ++ [(byte_start, byte_end, time_elapsed)] }

/-- FsspecMonitor.bytes_transferred: sum([req[1] - req[0] for req in
self._requests]). -/
def FsspecMonitor.bytes_transferred (m : FsspecMonitor) : ℤ :=
  (m._requests.map (fun req => req.2.1 - req.1)).sum

/-- FsspecMonitor.time_elapsed: sum([req[2] for req in self._requests]). -/
def FsspecMonitor.time_elapsed (m : FsspecMonitor) : ℚ :=
  (m._requests.map (fun req => req.2.2)).sum

/-- A Python float as produced by _compute_throughput: either the value
float("inf") or an ordinary number, modelled by a rational. -/
inductive PyFloat where
  | inf : PyFloat
  | val : ℚ → PyFloat
  deriving DecidableEq

/-- Module-level _compute_throughput: returns float("inf") when
time_elapsed <= 0, otherwise bytes_transferred / (time_elapsed * 1024 * 1024). -/
def _compute_throughput (bytes_transferred : ℤ) (time_elapsed : ℚ) : PyFloat :=
  if time_elapsed ≤ 0 then PyFloat.inf
  else PyFloat.val ((bytes_transferred : ℚ) / (time_elapsed * 1024 * 1024))

/-- FsspecMonitor.throughput: _compute_throughput applied to the two
aggregate sums. -/
def FsspecMonitor.throughput (m : FsspecMonitor) : PyFloat :=
  _compute_throughput m.bytes_transferred m.time_elapsed

/-- FsspecMonitor.requests: len(self._requests). -/
def FsspecMonitor.requests (m : FsspecMonitor) : ℕ :=
  m._requests.length

/-- Floor of a rational, computed as floor division of numerator by
denominator (the denominator of a normalized rational is positive). -/
def ratFloor (q : ℚ) : ℤ :=
  Int.fdiv q.num (q.den : ℤ)

/-- Round a rational to the nearest integer, ties to even; this is the
rounding applied by Python string formatting of a value. -/
def roundHalfEven (q : ℚ) : ℤ :=
  let f := ratFloor q
  let frac := q - (f : ℚ)
  if frac < 1 / 2 then f
  else if 1 / 2 < frac then f + 1
  else if f % 2 = 0 then f else f + 1

/-- Render a natural number below 100 as exactly two decimal digits. -/
def twoDecDigits (n : ℕ) : String :=
  if n < 10 then "0" ++ toString n else toString n

/-- Render a nonnegative count of hundredths as a decimal number with two
digits after the point. -/
def format2fNat (n : ℕ) : String :=
  toString (n / 100) ++ "." ++ twoDecDigits (n % 100)

/-- Python format specifier .2f applied to a number: fixed-point notation
with two digits after the decimal point. -/
def format2f (q : ℚ) : String :=
  if q < 0 then "-" ++ format2fNat (roundHalfEven (-q * 100)).toNat
  else format2fNat (roundHalfEven (q * 100)).toNat

/-- Python format specifier .2f applied to a float that may be infinite:
float("inf") renders as inf. -/
def pyFloat2f : PyFloat → String
  | PyFloat.inf => "inf"
  | PyFloat.val q => format2f q

/-- The default color argument of FsspecMonitor.print. -/
def ansiColor : String := "\u001B[1m\u001B[31;1m"

/-- The reset sequence appended by FsspecMonitor.print. -/
def ansiReset : String := "\u001B[0m"

/-- FsspecMonitor.print: emits the line color + msg + reset (the method
ignores self and always uses the default color). -/
def FsspecMonitor.print (msg : String) : String :=
  ansiColor ++ msg ++ ansiReset

/-- FsspecMonitor.summary: emits one line via FsspecMonitor.print with the
f-string of the source. -/
def FsspecMonitor.summary (m : FsspecMonitor) : String :=
  FsspecMonitor.print ("Summary: fetched " ++ toString m.bytes_transferred
    ++ " bytes (" ++ format2f ((m.bytes_transferred : ℚ) / (1024 * 1024))
    ++ " MB) in " ++ format2f m.time_elapsed
    ++ " s (" ++ pyFloat2f m.throughput
    ++ " MB/s) using " ++ toString m.requests ++ " requests.")

/-- The file object on which an intercepted _fetch_range call is made:
the wrapper reads obj.path and obj.size. -/
structure CallObj where
  path : String
  size : ℚ

/-- Byte payload returned by a successful _fetch_range call. -/
abbrev Payload := List ℕ

/-- Identity of a Python exception raised by an original implementation. -/
abbrev PyExc := ℕ

/-- Keyword arguments forwarded unchanged by the wrapper. -/
abbrev Kwargs := List (String × ℕ)

/-- The type of an original _fetch_range implementation as a callable:
it receives the file object, the two offsets and the keyword arguments,
and either returns a payload or raises. -/
abbrev FetchFn := CallObj → ℤ → ℤ → Kwargs → Except PyExc Payload

/-- Truth value of: the call outcome is a normal return. -/
def fetchOk : Except PyExc Payload → Bool
  | Except.ok _ => true
  | Except.error _ => false

/-- The message printed on the first recorded call:
f-string Reading obj.path (obj.size over 1024*1024 to two decimals, MB). -/
def readingMsg (obj : CallObj) : String :=
  "Reading " ++ obj.path ++ " (" ++ format2f (obj.size / (1024 * 1024)) ++ " MB)"

/-- The per-call message:
f-string FETCH bytes start-end (throughput to two decimals, MB/s), where
the throughput is _compute_throughput applied to this call alone. -/
def fetchMsg (byte_start byte_end : ℤ) (time_elapsed : ℚ) : String :=
  "FETCH bytes " ++ toString byte_start ++ "-" ++ toString byte_end
    ++ " (" ++ pyFloat2f (_compute_throughput (byte_end - byte_start) time_elapsed)
    ++ " MB/s)"

/-- Result of one execution of the wrapper installed by get_wrapper: the
monitor state afterwards, the console lines emitted, and the value
returned to (or exception propagated to) the caller. -/
structure WrapResult where
  monitor : FsspecMonitor
  output : List String
  result : Except PyExc Payload

/-- One execution of the wrapper returned by FsspecMonitor.get_wrapper:
unpack (obj, start, end) from the positional arguments, time the call to
func with all arguments unchanged, and on normal return optionally print
and then append to the log; an exception from func propagates immediately,
before any printing or logging. The measured perf_counter difference is
passed in as time_elapsed. -/
def wrapperCall (m : FsspecMonitor) (func : FetchFn) (obj : CallObj)
    (byte_start byte_end : ℤ) (kw : Kwargs) (time_elapsed : ℚ) : WrapResult :=
  match func obj byte_start byte_end kw with
  | Except.error e => ⟨m, [], Except.error e⟩
  | Except.ok v =>
      let output :=
        if m.verbose then
          (if m._requests = [] then [FsspecMonitor.print (readingMsg obj)] else [])
            ++ [FsspecMonitor.print (fetchMsg byte_start byte_end time_elapsed)]
        else []
      ⟨m.log byte_start byte_end time_elapsed, output, Except.ok v⟩

/-- The combined state seen by __enter__ and __exit__: the monitor
instance together with the process-wide class attribute environment
mapping each target class to its current _fetch_range binding. -/
structure SysState where
  monitor : FsspecMonitor
  env : Target → Impl

/-- One iteration of the loop body of __enter__ at a target: save the
current binding into self._original_methods unless the key is already
present, then rebind the class attribute to a wrapper built from the
current binding. -/
def enterTarget (s : SysState) (t : Target) : SysState :=
  let om :=
    if (s.monitor._original_methods t).isSome then s.monitor._original_methods
    else Function.update s.monitor._original_methods t (some (s.env t))
  { monitor := { s.monitor with _original_methods := om },
    env := Function.update s.env t (Impl.wrap (s.env t)) }

/-- The for-loop of __enter__ over a list of targets. -/
def enterList : SysState → List Target → SysState
  | s, [] => s
  | s, t :: rest => enterList (enterTarget s t) rest

/-- FsspecMonitor.__enter__: reset the log, then run the loop over
self.targets (reset leaves self.targets unchanged). -/
def SysState.enter (s : SysState) : SysState :=
  enterList { s with monitor := s.monitor.reset } s.monitor.targets

/-- The for-loop of __exit__ over a list of targets: each step looks up
self._original_methods[target], which raises KeyError (modelled as none)
when the key is absent, and otherwise rebinds the class attribute to the
saved original. -/
def exitList : SysState → List Target → Option SysState
  | s, [] => some s
  | s, t :: rest =>
      match s.monitor._original_methods t with
      | none => none
      | some impl => exitList { s with env := Function.update s.env t impl } rest

/-- FsspecMonitor.__exit__: runs the restore loop over self.targets; the
exception information argument is ignored by the source. -/
def SysState.exitSession (s : SysState) ( _excInfo : Option PyExc) : Option SysState :=
  exitList s s.monitor.targets

/-- The data of one intercepted call during a session: the original
callable reached through the wrapper, the positional arguments, the
keyword arguments and the elapsed time measured for the call. -/
structure CallEvent where
  func : FetchFn
  obj : CallObj
  byte_start : ℤ
  byte_end : ℤ
  kw : Kwargs
  time_elapsed : ℚ

/-- Truth value of: this event's original call returns normally. -/
def CallEvent.isOk (ev : CallEvent) : Bool :=
  fetchOk (ev.func ev.obj ev.byte_start ev.byte_end ev.kw)

/-- The log entry the wrapper appends for this event when it succeeds. -/
def CallEvent.record (ev : CallEvent) : FetchRecord :=
  (ev.byte_start, ev.byte_end, ev.time_elapsed)

/-- A sequence of intercepted calls executed through the wrapper, threading
the monitor state and concatenating the emitted console lines. -/
def runCalls (m : FsspecMonitor) : List CallEvent → FsspecMonitor × List String
  | [] => (m, [])
  | ev :: rest =>
      let w := wrapperCall m ev.func ev.obj ev.byte_start ev.byte_end ev.kw ev.time_elapsed
      let r := runCalls w.monitor rest
      (r.1, w.output ++ r.2)

/-- The sum over all records of (end - start), written as a direct
recursion following the spec's words, for comparison with
FsspecMonitor.bytes_transferred. -/
def sumBytesSpec : List FetchRecord → ℤ
  | [] => 0
  | req :: rest => (req.2.1 - req.1) + sumBytesSpec rest

/-- The sum over all records of elapsedSeconds, written as a direct
recursion following the spec's words, for comparison with
FsspecMonitor.time_elapsed. -/
def sumTimeSpec : List FetchRecord → ℚ
  | [] => 0
  | req :: rest => req.2.2 + sumTimeSpec rest

/-- The first-line-per-subject template of the spec's console output
format section: Reading path (sizeMB MB), size in MB to two decimals. -/
def specReadingLine (obj : CallObj) : String :=
  "Reading " ++ obj.path ++ " (" ++ format2f (obj.size / 1048576) ++ " MB)"

/-- The per-call line template of the spec's console output format
section: FETCH bytes start-end (throughput MB/s), throughput of this call
to two decimals. -/
def specFetchLine (byte_start byte_end : ℤ) (time_elapsed : ℚ) : String :=
  "FETCH bytes " ++ toString byte_start ++ "-" ++ toString byte_end
    ++ " (" ++ pyFloat2f (_compute_throughput (byte_end - byte_start) time_elapsed)
    ++ " MB/s)"

/-- The summary line template of the spec's console output format section:
Summary: fetched bytes bytes (MB MB) in seconds s (MB/s MB/s) using count
requests., sizes and throughput to two decimals. -/
def specSummaryLine (m : FsspecMonitor) : String :=
  "Summary: fetched " ++ toString m.bytes_transferred
    ++ " bytes (" ++ format2f ((m.bytes_transferred : ℚ) / 1048576)
    ++ " MB) in " ++ format2f m.time_elapsed
    ++ " s (" ++ pyFloat2f m.throughput
    ++ " MB/s) using " ++ toString m.requests ++ " requests."

/-- A concrete monitor as produced by the constructor: no targets needed
for the wrapper-level statements, verbose on, empty log, empty dictionary. -/
def m0 : FsspecMonitor := FsspecMonitor.init [] true

/-- A concrete file object for witnesses: 2 MiB of data. -/
def obj0 : CallObj := { path := "data.bin", size := 2097152 }

/-- A concrete original implementation that always succeeds. -/
def okFn : FetchFn := fun _ _ _ _ => Except.ok []

/-- A concrete original implementation that always raises. -/
def failFn : FetchFn := fun _ _ _ _ => Except.error 7

/-- A concrete system state for the restoration witness: two targets with
distinct original implementations, nothing saved yet. -/
def sysW : SysState :=
  { monitor := FsspecMonitor.init [0, 1] true, env := fun t => Impl.base t }

/-- Reset of a monitor as it acts on the combined state: the method body
only assigns self._requests, so the environment component is untouched. -/
def SysState.resetS (s : SysState) : SysState :=
  { s with monitor := s.monitor.reset }

lemma sumBytes_eq (l : List FetchRecord) :
    (l.map (fun req => req.2.1 - req.1)).sum = sumBytesSpec l := by
  induction l with
  | nil => rfl
  | cons req rest ih => simp [sumBytesSpec, ih]

lemma sumTime_eq (l : List FetchRecord) :
    (l.map (fun req => req.2.2)).sum = sumTimeSpec l := by
  induction l with
  | nil => rfl
  | cons req rest ih => simp [sumTimeSpec, ih]

/-- C3: throughput() returns bytes_transferred() divided by
(time_elapsed() * 1048576) whenever time_elapsed() is positive, and
returns positive infinity (not an error) whenever time_elapsed() is zero
or negative, in particular on an empty log. -/
theorem c3_throughput_convention (m : FsspecMonitor) :
    (m.time_elapsed ≤ 0 → m.throughput = PyFloat.inf)
    ∧ (0 < m.time_elapsed →
        m.throughput
          = PyFloat.val ((m.bytes_transferred : ℚ) / (m.time_elapsed * 1048576)))
    ∧ (m._requests = [] → m.throughput = PyFloat.inf) := by
  refine ⟨?_, ?_, ?_⟩
  · intro h
    simp [FsspecMonitor.throughput, _compute_throughput, h]
  · intro h
    rw [FsspecMonitor.throughput, _compute_throughput, if_neg (not_le.mpr h)]
    rw [mul_assoc]
    norm_num
  · intro h
    have hte : m.time_elapsed = 0 := by
      simp [FsspecMonitor.time_elapsed, h]
    simp [FsspecMonitor.throughput, _compute_throughput, hte]

/-- Witness for C3 at the freshly constructed monitor: empty log, infinite
throughput. -/
theorem c3_witness : m0.throughput = PyFloat.inf :=
  (c3_throughput_convention m0).2.2 rfl

/-- C4: bytes_transferred() is the sum over the records of the request log
of (end - start), and is 0 on the empty log. -/
theorem c4_bytes_transferred (m : FsspecMonitor) :
    m.bytes_transferred = sumBytesSpec m._requests
    ∧ (m._requests = [] → m.bytes_transferred = 0) := by
  refine ⟨sumBytes_eq m._requests, ?_⟩
  intro h
  simp [FsspecMonitor.bytes_transferred, h]

/-- Witness for C4 at the freshly constructed monitor. -/
theorem c4_witness : m0.bytes_transferred = 0 :=
  (c4_bytes_transferred m0).2 rfl

/-- C5: time_elapsed() is the sum over the records of the request log of
elapsedSeconds, and is 0 on the empty log. -/
theorem c5_time_elapsed (m : FsspecMonitor) :
    m.time_elapsed = sumTimeSpec m._requests
    ∧ (m._requests = [] → m.time_elapsed = 0) := by
  refine ⟨sumTime_eq m._requests, ?_⟩
  intro h
  simp [FsspecMonitor.time_elapsed, h]

/-- Witness for C5 at the freshly constructed monitor. -/
theorem c5_witness : m0.time_elapsed = 0 :=
  (c5_time_elapsed m0).2 rfl

/-- C6: reset() empties the request log and changes nothing else: the
class attribute environment, the saved-originals dictionary, the target
list and the verbose flag are unchanged, and every aggregate query on the
reset monitor returns its empty-state value (0, 0, 0, infinity). -/
theorem c6_reset_frame (s : SysState) :
    s.resetS.monitor._requests = []
    ∧ s.resetS.env = s.env
    ∧ s.resetS.monitor._original_methods = s.monitor._original_methods
    ∧ s.resetS.monitor.targets = s.monitor.targets
    ∧ s.resetS.monitor.verbose = s.monitor.verbose
    ∧ s.resetS.monitor.bytes_transferred = 0
    ∧ s.resetS.monitor.time_elapsed = 0
    ∧ s.resetS.monitor.requests = 0
    ∧ s.resetS.monitor.throughput = PyFloat.inf := by
  refine ⟨rfl, rfl, rfl, rfl, rfl, rfl, rfl, rfl, ?_⟩
  simp [SysState.resetS, FsspecMonitor.reset, FsspecMonitor.throughput,
    FsspecMonitor.time_elapsed, FsspecMonitor.bytes_transferred, _compute_throughput]

/-- C10: log() appends its three arguments verbatim, with no validation;
in particular a record with end smaller than start and negative elapsed
time is stored as given, after which bytes_transferred() is negative. -/
theorem c10_log_unvalidated :
    (∀ (m : FsspecMonitor) (byte_start byte_end : ℤ) (time_elapsed : ℚ),
      (m.log byte_start byte_end time_elapsed)._requests
        = m._requests ++ [(byte_start, byte_end, time_elapsed)])
    ∧ (m0.log 10 3 (-1))._requests = [(10, 3, -1)]
    ∧ (∃ req ∈ (m0.log 10 3 (-1))._requests, req.2.1 < req.1 ∧ req.2.2 < 0)
    ∧ (m0.log 10 3 (-1)).bytes_transferred = -7 := by
  refine ⟨fun m bs be te => rfl, rfl, ⟨(10, 3, -1), by decide, by decide⟩, by decide⟩

/-- C2: the wrapper calls the original with all arguments unchanged and
returns exactly its outcome; when the original raises, the exception
propagates unmodified, nothing is printed, and the monitor state (in
particular the request log) is unchanged. -/
theorem c2_wrapper_transparent (m : FsspecMonitor) (func : FetchFn)
    (obj : CallObj) (byte_start byte_end : ℤ) (kw : Kwargs) (time_elapsed : ℚ) :
    (wrapperCall m func obj byte_start byte_end kw time_elapsed).result
        = func obj byte_start byte_end kw
    ∧ (∀ e, func obj byte_start byte_end kw = Except.error e →
        wrapperCall m func obj byte_start byte_end kw time_elapsed
          = ⟨m, [], Except.error e⟩) := by
  cases h : func obj byte_start byte_end kw with
  | error e =>
      refine ⟨?_, ?_⟩
      · simp [wrapperCall, h]
      · intro e' he'
        cases he'
        simp [wrapperCall, h]
  | ok v =>
      refine ⟨?_, ?_⟩
      · simp [wrapperCall, h]
      · intro e' he'
        cases he'

/-- Witness for C2: a failing original propagates its exception and leaves
the monitor untouched with no output. -/
theorem c2_witness :
    wrapperCall m0 failFn obj0 0 100 [] (1 / 2) = ⟨m0, [], Except.error 7⟩ :=
  (c2_wrapper_transparent m0 failFn obj0 0 100 [] (1 / 2)).2 7 rfl

/-- C7: over any sequence of intercepted calls, exactly the successful
calls append records, one record per call, in completion order; hence
requests() grows by the number of successful calls, and starting from an
empty (freshly reset) log it equals that number. -/
theorem c7_request_log_counts (m : FsspecMonitor) (evs : List CallEvent) :
    (runCalls m evs).1._requests
        = m._requests ++ (evs.filter CallEvent.isOk).map CallEvent.record
    ∧ (runCalls m evs).1.requests
        = m.requests + (evs.filter CallEvent.isOk).length := by
  have main : ∀ (l : List CallEvent) (mm : FsspecMonitor),
      (runCalls mm l).1._requests
        = mm._requests ++ (l.filter CallEvent.isOk).map CallEvent.record := by
    intro l
    induction l with
    | nil => intro mm; simp [runCalls]
    | cons ev rest ih =>
        intro mm
        cases hev : ev.func ev.obj ev.byte_start ev.byte_end ev.kw with
        | error e =>
            have hok : CallEvent.isOk ev = false := by
              simp [CallEvent.isOk, fetchOk, hev]
            have hw : (wrapperCall mm ev.func ev.obj ev.byte_start ev.byte_end
                ev.kw ev.time_elapsed).monitor = mm := by
              simp [wrapperCall, hev]
            simp [runCalls, hw, hok, ih]
        | ok v =>
            have hok : CallEvent.isOk ev = true := by
              simp [CallEvent.isOk, fetchOk, hev]
            have hw : (wrapperCall mm ev.func ev.obj ev.byte_start ev.byte_end
                ev.kw ev.time_elapsed).monitor
                  = mm.log ev.byte_start ev.byte_end ev.time_elapsed := by
              simp [wrapperCall, hev]
            simp [runCalls, hw, hok, ih, FsspecMonitor.log, CallEvent.record]
  refine ⟨main evs m, ?_⟩
  have h := main evs m
  unfold FsspecMonitor.requests
  rw [h]
  simp [FsspecMonitor.requests]

/-- C8 counterexample: in one session (no exit in between), after a first
recorded call a manual reset() empties the log, and the next recorded
call of the same session prints the header line again; moreover the first
call had indeed been recorded. This refutes the claim that the header is
printed only on the very first recorded call of the session and on no
later one. -/
theorem c8_counterexample :
    FsspecMonitor.print (readingMsg obj0)
      ∈ (wrapperCall ((wrapperCall m0 okFn obj0 0 100 [] 1).monitor.reset)
          okFn obj0 100 200 [] 1).output
    ∧ (wrapperCall m0 okFn obj0 0 100 [] 1).monitor._requests ≠ [] := by
  refine ⟨?_, ?_⟩
  · simp [wrapperCall, okFn, m0, FsspecMonitor.init, FsspecMonitor.reset,
      FsspecMonitor.log]
  · simp [wrapperCall, okFn, m0, FsspecMonitor.init, FsspecMonitor.log]

/-- C8 amended: when verbose is on and the original call succeeds, the
wrapper prints the header line exactly when the request log is empty at
the moment of the call (that is, on the first recorded call since
enter() or since the most recent reset()), always followed by the
per-call FETCH line; and after any recorded call the log is nonempty, so
no later recorded call prints the header until a reset empties the log
again. -/
theorem c8_header_on_empty_log (m : FsspecMonitor) (func : FetchFn)
    (obj : CallObj) (byte_start byte_end : ℤ) (kw : Kwargs)
    (time_elapsed : ℚ) (v : Payload)
    (hok : func obj byte_start byte_end kw = Except.ok v)
    (hv : m.verbose = true) :
    (m._requests = [] →
      (wrapperCall m func obj byte_start byte_end kw time_elapsed).output
        = [FsspecMonitor.print (readingMsg obj),
           FsspecMonitor.print (fetchMsg byte_start byte_end time_elapsed)])
    ∧ (m._requests ≠ [] →
      (wrapperCall m func obj byte_start byte_end kw time_elapsed).output
        = [FsspecMonitor.print (fetchMsg byte_start byte_end time_elapsed)])
    ∧ (wrapperCall m func obj byte_start byte_end kw time_elapsed).monitor._requests
        ≠ [] := by
  refine ⟨?_, ?_, ?_⟩
  · intro h
    simp [wrapperCall, hok, hv, h]
  · intro h
    simp [wrapperCall, hok, hv, h]
  · simp [wrapperCall, hok, FsspecMonitor.log]

/-- Witness for C8 amended: a first successful verbose call on an empty
log prints the header then the FETCH line. -/
theorem c8_witness :
    (wrapperCall m0 okFn obj0 0 100 [] 1).output
      = [FsspecMonitor.print (readingMsg obj0),
         FsspecMonitor.print (fetchMsg 0 100 1)] :=
  (c8_header_on_empty_log m0 okFn obj0 0 100 [] 1 [] rfl rfl).1 rfl

lemma summary_eq_spec (m : FsspecMonitor) :
    m.summary = FsspecMonitor.print (specSummaryLine m) := by
  unfold FsspecMonitor.summary specSummaryLine
  norm_num

lemma readingMsg_eq_spec (obj : CallObj) :
    readingMsg obj = specReadingLine obj := by
  unfold readingMsg specReadingLine
  norm_num

lemma fetchMsg_eq_spec (byte_start byte_end : ℤ) (time_elapsed : ℚ) :
    fetchMsg byte_start byte_end time_elapsed
      = specFetchLine byte_start byte_end time_elapsed := rfl

/-- C9 counterexample: the emitted summary line is not exactly the
specified template, because FsspecMonitor.print wraps every message in
ANSI color escape sequences; on the freshly constructed monitor the two
strings differ (the emitted one is 15 characters longer). -/
theorem c9_counterexample : FsspecMonitor.summary m0 ≠ specSummaryLine m0 := by
  rw [summary_eq_spec]
  intro h
  have hl := congrArg String.length h
  rw [FsspecMonitor.print] at hl
  rw [String.length_append, String.length_append] at hl
  have hc : ansiColor.length = 11 := rfl
  have hr : ansiReset.length = 4 := rfl
  rw [hc, hr] at hl
  omega

/-- C9 amended: every console line is exactly the specified template
wrapped in the ANSI bold red color code and the ANSI reset code: the
summary line is the specified summary template so wrapped, and the lines
emitted by an intercepted call are the specified header and per-call
templates so wrapped (header only when the log is empty, lines only on a
successful call with verbose on); numeric fields use two decimal places
as specified. -/
theorem c9_console_line_format (m : FsspecMonitor) (func : FetchFn)
    (obj : CallObj) (byte_start byte_end : ℤ) (kw : Kwargs) (time_elapsed : ℚ) :
    m.summary = ansiColor ++ specSummaryLine m ++ ansiReset
    ∧ (wrapperCall m func obj byte_start byte_end kw time_elapsed).output
        = (if fetchOk (func obj byte_start byte_end kw) && m.verbose then
            (if m._requests = []
              then [ansiColor ++ specReadingLine obj ++ ansiReset] else [])
              ++ [ansiColor ++ specFetchLine byte_start byte_end time_elapsed
                    ++ ansiReset]
          else ([] : List String)) := by
  refine ⟨summary_eq_spec m, ?_⟩
  cases hev : func obj byte_start byte_end kw with
  | error e => simp [wrapperCall, hev, fetchOk]
  | ok v =>
      by_cases hv : m.verbose = true
      · by_cases hr : m._requests = []
        · simp [wrapperCall, hev, fetchOk, hv, hr, FsspecMonitor.print,
            readingMsg_eq_spec, fetchMsg_eq_spec]
        · simp [wrapperCall, hev, fetchOk, hv, hr, FsspecMonitor.print,
            readingMsg_eq_spec, fetchMsg_eq_spec]
      · have hv' : m.verbose = false := by
          cases hb : m.verbose
          · rfl
          · exact absurd hb hv
        simp [wrapperCall, hev, fetchOk, hv']

lemma enterTarget_env_ne (s : SysState) (a t : Target) (h : t ≠ a) :
    (enterTarget s a).env t = s.env t := by
  simp [enterTarget, Function.update_noteq h]

lemma enterTarget_om_ne (s : SysState) (a t : Target) (h : t ≠ a) :
    (enterTarget s a).monitor._original_methods t
      = s.monitor._original_methods t := by
  by_cases hs : (s.monitor._original_methods a).isSome
  · simp [enterTarget, hs]
  · simp [enterTarget, hs, Function.update_noteq h]

lemma enterTarget_om_saved (E : Target → Impl) (s : SysState) (a : Target)
    (h : s.monitor._original_methods a = some (E a) ∨
        (s.monitor._original_methods a = none ∧ s.env a = E a)) :
    (enterTarget s a).monitor._original_methods a = some (E a) := by
  rcases h with h1 | ⟨h1, h2⟩
  · have hs : (s.monitor._original_methods a).isSome = true := by
      rw [h1]; rfl
    simp [enterTarget, hs, h1]
  · have hs : (s.monitor._original_methods a).isSome = false := by
      rw [h1]; rfl
    simp [enterTarget, hs, Function.update_same, h2]

lemma enterTarget_frame (s : SysState) (a : Target) :
    (enterTarget s a).monitor.targets = s.monitor.targets
    ∧ (enterTarget s a).monitor.verbose = s.monitor.verbose
    ∧ (enterTarget s a).monitor._requests = s.monitor._requests := by
  by_cases hs : (s.monitor._original_methods a).isSome
  · simp [enterTarget, hs]
  · simp [enterTarget, hs]

lemma enterList_inv (E : Target → Impl) (l : List Target) :
    ∀ (s : SysState),
      (∀ t ∈ l, s.monitor._original_methods t = some (E t) ∨
          (s.monitor._original_methods t = none ∧ s.env t = E t)) →
      (∀ t ∈ l, (enterList s l).monitor._original_methods t = some (E t))
      ∧ (∀ t, t ∉ l → (enterList s l).env t = s.env t)
      ∧ (∀ t, t ∉ l →
          (enterList s l).monitor._original_methods t
            = s.monitor._original_methods t)
      ∧ (enterList s l).monitor.targets = s.monitor.targets := by
  induction l with
  | nil =>
      intro s h
      exact ⟨by simp, fun t _ => rfl, fun t _ => rfl, rfl⟩
  | cons a rest ih =>
      intro s h
      have hsaved : (enterTarget s a).monitor._original_methods a = some (E a) :=
        enterTarget_om_saved E s a (h a (List.mem_cons_self a rest))
      have hrest : ∀ t ∈ rest,
          (enterTarget s a).monitor._original_methods t = some (E t) ∨
          ((enterTarget s a).monitor._original_methods t = none
            ∧ (enterTarget s a).env t = E t) := by
        intro t ht
        by_cases hta : t = a
        · subst hta
          exact Or.inl hsaved
        · rw [enterTarget_om_ne s a t hta, enterTarget_env_ne s a t hta]
          exact h t (List.mem_cons_of_mem a ht)
      obtain ⟨A, B, C, T⟩ := ih (enterTarget s a) hrest
      have hel : enterList s (a :: rest) = enterList (enterTarget s a) rest := rfl
      refine ⟨?_, ?_, ?_, ?_⟩
      · intro t ht
        rcases List.mem_cons.mp ht with h1 | h1
        · subst h1
          by_cases hmem : t ∈ rest
          · exact hel ▸ A t hmem
          · rw [hel, C t hmem, hsaved]
        · exact hel ▸ A t h1
      · intro t ht
        have ht1 : t ≠ a := fun he => ht (he ▸ List.mem_cons_self a rest)
        have ht2 : t ∉ rest := fun hm => ht (List.mem_cons_of_mem a hm)
        rw [hel, B t ht2, enterTarget_env_ne s a t ht1]
      · intro t ht
        have ht1 : t ≠ a := fun he => ht (he ▸ List.mem_cons_self a rest)
        have ht2 : t ∉ rest := fun hm => ht (List.mem_cons_of_mem a hm)
        rw [hel, C t ht2, enterTarget_om_ne s a t ht1]
      · rw [hel, T, (enterTarget_frame s a).1]

lemma exitList_spec (E : Target → Impl) (l : List Target) :
    ∀ (s : SysState),
      (∀ t ∈ l, s.monitor._original_methods t = some (E t)) →
      ∃ s', exitList s l = some s'
        ∧ (∀ t ∈ l, s'.env t = E t)
        ∧ (∀ t, t ∉ l → s'.env t = s.env t)
        ∧ s'.monitor = s.monitor := by
  induction l with
  | nil =>
      intro s h
      exact ⟨s, rfl, by simp, fun t _ => rfl, rfl⟩
  | cons a rest ih =>
      intro s h
      have ha := h a (List.mem_cons_self a rest)
      have hstep : exitList s (a :: rest)
          = exitList { s with env := Function.update s.env a (E a) } rest := by
        simp [exitList, ha]
      have hrest : ∀ t ∈ rest,
          ({ s with env := Function.update s.env a (E a) } :
              SysState).monitor._original_methods t = some (E t) :=
        fun t ht => h t (List.mem_cons_of_mem a ht)
      obtain ⟨s', he, hon, hoff, hm⟩ := ih _ hrest
      refine ⟨s', by rw [hstep]; exact he, ?_, ?_, by rw [hm]⟩
      · intro t ht
        rcases List.mem_cons.mp ht with h1 | h1
        · subst h1
          by_cases hmem : t ∈ rest
          · exact hon t hmem
          · rw [hoff t hmem]
            exact Function.update_same t (E t) s.env
        · exact hon t h1
      · intro t ht
        have ht1 : t ≠ a := fun he' => ht (he' ▸ List.mem_cons_self a rest)
        have ht2 : t ∉ rest := fun hm' => ht (List.mem_cons_of_mem a hm')
        rw [hoff t ht2]
        exact Function.update_noteq ht1 (E a) s.env

/-- C1: for any session state whose saved-originals dictionary is
consistent with the live bindings (each target either not yet saved, or
saved with its current binding, as holds for a fresh monitor and is
preserved by the class itself), running enter() to completion and then
exit() -- with any exception information, i.e. whether the scope exited
normally or via a failure -- succeeds and restores every target's
_fetch_range binding to its value from before enter(); the whole
environment is restored exactly. -/
theorem c1_exit_restores_bindings (s : SysState) (excInfo : Option PyExc)
    (h : ∀ t ∈ s.monitor.targets,
        s.monitor._original_methods t = none ∨
        s.monitor._original_methods t = some (s.env t)) :
    ∃ s', (s.enter).exitSession excInfo = some s' ∧ s'.env = s.env := by
  have h0 : ∀ t ∈ s.monitor.targets,
      ({ s with monitor := s.monitor.reset } :
          SysState).monitor._original_methods t = some (s.env t) ∨
      (({ s with monitor := s.monitor.reset } :
          SysState).monitor._original_methods t = none
        ∧ ({ s with monitor := s.monitor.reset } : SysState).env t = s.env t) := by
    intro t ht
    rcases h t ht with h1 | h1
    · exact Or.inr ⟨h1, rfl⟩
    · exact Or.inl h1
  obtain ⟨A, B, C, T⟩ := enterList_inv s.env s.monitor.targets _ h0
  have hT : (s.enter).monitor.targets = s.monitor.targets := T
  have hA : ∀ t ∈ (s.enter).monitor.targets,
      (s.enter).monitor._original_methods t = some (s.env t) := by
    rw [hT]
    exact A
  obtain ⟨s', he, hon, hoff, hm⟩ :=
    exitList_spec s.env (s.enter).monitor.targets (s.enter) hA
  refine ⟨s', he, ?_⟩
  funext t
  by_cases hmem : t ∈ (s.enter).monitor.targets
  · exact hon t hmem
  · rw [hoff t hmem]
    have hmem' : t ∉ s.monitor.targets := by
      rw [← hT]
      exact hmem
    exact B t hmem'

/-- Witness for C1: two fresh targets, enter then exit with an exception
in flight; the bindings come back to the originals. -/
theorem c1_witness :
    ∃ s', (sysW.enter).exitSession (some 3) = some s' ∧ s'.env = sysW.env :=
  c1_exit_restores_bindings sysW (some 3) (by intro t ht; exact Or.inl rfl)
